import Mathlib

/-!
# Verification of the up-and-out barrier call pricer (BarrierOptions.ipynb)

A shallow embedding of the notebook's core numerical code:

* `option_payoff` — the Monte Carlo path simulator's barrier-conditioned terminal
  value (cell 2 of the notebook), with the N×m matrix of standard-normal draws
  `Z` and the monitoring grid `t` passed explicitly.
* `discounted_call_payoff` — the discounted call payoff transform.
* `np_mean`, `np_std` — NumPy's `mean` and `std` (population normalization,
  `ddof = 0`) on a list of reals.
* `months`, `time_grid` — the notebook's monitoring schedule
  (`months = int(T*12)`, `t = np.arange(1/12, (months+1)/12, 1/12)`).
* `delta_plus`, `delta_minus`, `p1` … `p4`, `analytical_callprice` — the
  closed-form Reiner–Rubinstein-style price (cell 3).

Floating point is idealized as real arithmetic.  The external standard-normal
CDF `scipy.stats.norm.cdf` is an uninterpreted function parameter `Phi`; all
structural statements about the pricer are proved uniformly in `Phi`, and
structural refutations exhibit an explicit `Phi`.
-/

namespace BarrierOptions

noncomputable section

/-- Cell 2, `option_payoff(S_0, r, sigma, Z, t, L)`:
`S_t = S_0*np.exp((r - sigma**2/2)*t + sigma*np.sqrt(t)*Z)` (row per path),
`S_m = np.amax(S_t, axis=1)`, `S_T = S_t[:,-1]`, result `S_T * (S_m < L)`.
The matrix `Z` has `N` rows and `m+1` columns (the grid is nonempty, as in the
notebook where it has 12 columns). -/
def option_payoff {N m : ℕ} (S_0 r sigma : ℝ) (Z : Fin N → Fin (m + 1) → ℝ)
    (t : Fin (m + 1) → ℝ) (L : ℝ) : Fin N → ℝ :=
  fun p =>
    let S_row : Fin (m + 1) → ℝ := fun i =>
      S_0 * Real.exp ((r - sigma ^ 2 / 2) * t i + sigma * Real.sqrt (t i) * Z p i)
    let S_m : ℝ := Finset.univ.sup' Finset.univ_nonempty S_row
    let S_T : ℝ := S_row (Fin.last m)
    S_T * (if S_m < L then 1 else 0)

/-- Cell 2, `discounted_call_payoff(S_T, K, r, T)`:
`np.exp(-r*T)*np.maximum(S_T-K, 0)`. -/
def discounted_call_payoff (S_T K r T : ℝ) : ℝ :=
  Real.exp (-r * T) * max (S_T - K) 0

/-- NumPy `np.mean` on a 1-D array. -/
def np_mean (xs : List ℝ) : ℝ := xs.sum / xs.length

/-- NumPy `np.std` on a 1-D array: population (`ddof = 0`) standard deviation,
`sqrt(mean((x - mean x)^2))`. -/
def np_std (xs : List ℝ) : ℝ :=
  Real.sqrt ((xs.map (fun x => (x - np_mean xs) ^ 2)).sum / xs.length)

/-- Cell 2, the line `call_std[i-1] = np.std(call_val)/np.sqrt(i*1000)`:
the Monte Carlo standard error as the code computes it (the divisor
`i*1000` is the length of `call_val`). -/
def call_std_of (xs : List ℝ) : ℝ := np_std xs / Real.sqrt xs.length

/-- Cell 2, `months = int(T*12)` (Python `int` truncates; for `T > 0` this is
the floor). -/
def months (T : ℝ) : ℕ := (⌊T * 12⌋).toNat

/-- Cell 2, `t = np.arange(1/12, (months + 1)/12, 1/12)`: the `m`-element grid
whose `i`-th entry (0-based) is `(i+1)/12`. -/
def time_grid (m : ℕ) : Fin m → ℝ := fun i => ((i : ℝ) + 1) / 12

/-- Cell 3, `delta_plus(tau, s, sigma, r)`:
`(math.log(s)+(r+sigma**2/2)*tau)/(sigma*np.sqrt(tau))`. -/
def delta_plus (tau s sigma r : ℝ) : ℝ :=
  (Real.log s + (r + sigma ^ 2 / 2) * tau) / (sigma * Real.sqrt tau)

/-- Cell 3, `delta_minus(tau, s, sigma, r)`:
`(math.log(s)+(r-sigma**2/2)*tau)/(sigma*np.sqrt(tau))`. -/
def delta_minus (tau s sigma r : ℝ) : ℝ :=
  (Real.log s + (r - sigma ^ 2 / 2) * tau) / (sigma * Real.sqrt tau)

/-- Cell 3, `p1`: `(norm.cdf(delta_plus(T, S_0/K, sigma, r))
- norm.cdf(delta_plus(T, S_0/L, sigma, r)))*S_0`, with the external CDF as the
uninterpreted parameter `Phi`. -/
def p1 (Phi : ℝ → ℝ) (r S_0 sigma K T L : ℝ) : ℝ :=
  (Phi (delta_plus T (S_0 / K) sigma r) - Phi (delta_plus T (S_0 / L) sigma r)) * S_0

/-- Cell 3, `p2`: `(norm.cdf(delta_minus(T, S_0/K, sigma, r))
- norm.cdf(delta_minus(T, S_0/L, sigma, r)))*K*np.exp(-r*T)`. -/
def p2 (Phi : ℝ → ℝ) (r S_0 sigma K T L : ℝ) : ℝ :=
  (Phi (delta_minus T (S_0 / K) sigma r) - Phi (delta_minus T (S_0 / L) sigma r)) *
    K * Real.exp (-r * T)

/-- Cell 3, `p3`: `(norm.cdf(delta_plus(T, L**2/(K*S_0), sigma, r))
- norm.cdf(delta_plus(T, L/S_0, sigma, r)))*L*(S_0/L)**(-2*r/sigma**2)`. -/
def p3 (Phi : ℝ → ℝ) (r S_0 sigma K T L : ℝ) : ℝ :=
  (Phi (delta_plus T (L ^ 2 / (K * S_0)) sigma r) - Phi (delta_plus T (L / S_0) sigma r)) *
    L * (S_0 / L) ^ (-2 * r / sigma ^ 2 : ℝ)

/-- Cell 3, `p4`: `(norm.cdf(delta_minus(T, L**2/(K*S_0), sigma, r))
- norm.cdf(delta_minus(T, L/S_0, sigma, r)))*K*np.exp(-r*T)*(S_0/L)**(1-2*r/sigma**2)`.
Note the exponent `1 - 2*r/sigma**2`. -/
def p4 (Phi : ℝ → ℝ) (r S_0 sigma K T L : ℝ) : ℝ :=
  (Phi (delta_minus T (L ^ 2 / (K * S_0)) sigma r) - Phi (delta_minus T (L / S_0) sigma r)) *
    K * Real.exp (-r * T) * (S_0 / L) ^ (1 - 2 * r / sigma ^ 2 : ℝ)

/-- Cell 3, `analytical_callprice = p1-p2-p3+p4`. -/
def analytical_callprice (Phi : ℝ → ℝ) (r S_0 sigma K T L : ℝ) : ℝ :=
  p1 Phi r S_0 sigma K T L - p2 Phi r S_0 sigma K T L -
    p3 Phi r S_0 sigma K T L + p4 Phi r S_0 sigma K T L

end

/-! ## C10: the delta helpers differ by `sigma * sqrt tau` -/

/-- C10: for every `tau > 0`, `s > 0`, `sigma > 0` and any `r`,
`delta_plus tau s sigma r - delta_minus tau s sigma r = sigma * sqrt tau`,
the identity the closed-form barrier formula relies on. -/
theorem delta_plus_sub_delta_minus_C10 (tau s sigma r : ℝ)
    (htau : 0 < tau) (hs : 0 < s) (hsigma : 0 < sigma) :
    delta_plus tau s sigma r - delta_minus tau s sigma r = sigma * Real.sqrt tau := by
  have hsq : Real.sqrt tau ≠ 0 := ne_of_gt (Real.sqrt_pos.mpr htau)
  have hmul : Real.sqrt tau * Real.sqrt tau = tau := Real.mul_self_sqrt htau.le
  unfold delta_plus delta_minus
  rw [div_sub_div_same, div_eq_iff (by positivity)]
  ring_nf
  nlinarith [hmul]

/-- Concrete instance of `delta_plus_sub_delta_minus_C10` at
`tau = 1`, `s = 1`, `sigma = 1`, `r = 0`. -/
theorem delta_plus_sub_delta_minus_C10_witness :
    (0 : ℝ) < 1 ∧ delta_plus 1 1 1 0 - delta_minus 1 1 1 0 = 1 * Real.sqrt 1 :=
  ⟨by norm_num,
    delta_plus_sub_delta_minus_C10 1 1 1 0 (by norm_num) (by norm_num) (by norm_num)⟩

/-! ## C7: non-negativity of discounted payoffs and of their mean -/

/-- C7: for every `K > 0` and any `r`, `T` and terminal-value list, every
individual discounted payoff `exp(-r*T) * max (S_T - K) 0` is nonnegative, and
the Monte Carlo mean of the discounted payoffs is nonnegative. -/
theorem discounted_payoff_and_mean_nonneg_C7 (K r T : ℝ) (hK : 0 < K)
    (S_Ts : List ℝ) :
    (∀ x ∈ S_Ts.map (fun s => discounted_call_payoff s K r T), 0 ≤ x) ∧
      0 ≤ np_mean (S_Ts.map (fun s => discounted_call_payoff s K r T)) := by
  have hnn : ∀ x ∈ S_Ts.map (fun s => discounted_call_payoff s K r T), 0 ≤ x := by
    intro x hx
    rcases List.mem_map.mp hx with ⟨s, _, rfl⟩
    exact mul_nonneg (Real.exp_pos _).le (le_max_right _ _)
  refine ⟨hnn, ?_⟩
  unfold np_mean
  exact div_nonneg (List.sum_nonneg hnn) (Nat.cast_nonneg _)

/-- Concrete instance of `discounted_payoff_and_mean_nonneg_C7` at
`K = 1`, `r = 0`, `T = 1`, terminal values `[2]`. -/
theorem discounted_payoff_and_mean_nonneg_C7_witness :
    (∀ x ∈ [(2 : ℝ)].map (fun s => discounted_call_payoff s 1 0 1), 0 ≤ x) ∧
      0 ≤ np_mean ([(2 : ℝ)].map (fun s => discounted_call_payoff s 1 0 1)) :=
  discounted_payoff_and_mean_nonneg_C7 1 0 1 (by norm_num) [2]

/-! ## C2: the path simulator's output is the barrier-conditioned terminal value -/

/-- C2: for every path count `N ≥ 1` (a path index `p : Fin N` exists), grid
`t`, and draw matrix `Z`, the entry of `option_payoff` for path `p` is the
terminal simulated price `S0 * exp((r - sigma^2/2)*t_i + sigma*sqrt(t_i)*Z[p,i])`
at the last monitoring step when every monitored price of that path is strictly
below `L`, and `0` when some monitored price reaches `L`; each step uses the
absolute time `t i` with a single draw `Z p i`. -/
theorem option_payoff_barrier_conditioned_C2 {N m : ℕ} (S_0 r sigma L : ℝ)
    (t : Fin (m + 1) → ℝ) (Z : Fin N → Fin (m + 1) → ℝ) (p : Fin N) :
    ((∀ i : Fin (m + 1),
        S_0 * Real.exp ((r - sigma ^ 2 / 2) * t i + sigma * Real.sqrt (t i) * Z p i) < L) →
      option_payoff S_0 r sigma Z t L p =
        S_0 * Real.exp ((r - sigma ^ 2 / 2) * t (Fin.last m) +
          sigma * Real.sqrt (t (Fin.last m)) * Z p (Fin.last m))) ∧
    ((∃ i : Fin (m + 1),
        L ≤ S_0 * Real.exp ((r - sigma ^ 2 / 2) * t i + sigma * Real.sqrt (t i) * Z p i)) →
      option_payoff S_0 r sigma Z t L p = 0) := by
  constructor
  · intro h
    have hmax : Finset.univ.sup' Finset.univ_nonempty
        (fun i : Fin (m + 1) =>
          S_0 * Real.exp ((r - sigma ^ 2 / 2) * t i + sigma * Real.sqrt (t i) * Z p i)) < L :=
      (Finset.sup'_lt_iff Finset.univ_nonempty).mpr fun i _ => h i
    simp only [option_payoff, hmax, if_pos]
    ring
  · rintro ⟨i, hi⟩
    have hmax : ¬ Finset.univ.sup' Finset.univ_nonempty
        (fun i : Fin (m + 1) =>
          S_0 * Real.exp ((r - sigma ^ 2 / 2) * t i + sigma * Real.sqrt (t i) * Z p i)) < L := by
      intro hlt
      exact absurd ((Finset.sup'_lt_iff Finset.univ_nonempty).mp hlt i (Finset.mem_univ i))
        (not_lt.mpr hi)
    simp only [option_payoff, hmax, if_neg, not_false_iff]
    ring

/-- Concrete instance of `option_payoff_barrier_conditioned_C2`: one path, one
monitoring step, all draws zero, barrier `2` never hit, payoff equals the
terminal price `1`. -/
theorem option_payoff_barrier_conditioned_C2_witness :
    option_payoff (N := 1) (m := 0) 1 0 0 (fun _ _ => 0) (fun _ => 0) 2 0 = 1 := by
  have h := (option_payoff_barrier_conditioned_C2 (N := 1) (m := 0) 1 0 0 2
      (fun _ => 0) (fun _ _ => 0) 0).1 (fun i => by norm_num)
  rw [h]
  norm_num

/-! ## C9: homogeneity of degree 1 of the analytical price -/

/-- C9: scaling `S_0`, `K` and `L` by the same positive constant `c` scales the
analytical price by exactly `c`, for any CDF `Phi` and all positive parameters. -/
theorem analytical_callprice_scale_invariance_C9 (Phi : ℝ → ℝ)
    (c r S_0 sigma K T L : ℝ) (hc : 0 < c) (hS : 0 < S_0) (hK : 0 < K)
    (hL : 0 < L) (hsigma : 0 < sigma) (hT : 0 < T) :
    analytical_callprice Phi r (c * S_0) sigma (c * K) T (c * L) =
      c * analytical_callprice Phi r S_0 sigma K T L := by
  have hc' : c ≠ 0 := ne_of_gt hc
  have h1 : c * S_0 / (c * K) = S_0 / K := mul_div_mul_left _ _ hc'
  have h2 : c * S_0 / (c * L) = S_0 / L := mul_div_mul_left _ _ hc'
  have h3 : (c * L) ^ 2 / (c * K * (c * S_0)) = L ^ 2 / (K * S_0) := by
    field_simp
    ring
  have h4 : c * L / (c * S_0) = L / S_0 := mul_div_mul_left _ _ hc'
  unfold analytical_callprice p1 p2 p3 p4
  rw [h1, h2, h3, h4]
  ring

/-- Concrete instance of `analytical_callprice_scale_invariance_C9` at `c = 2`,
unit parameters, identity CDF. -/
theorem analytical_callprice_scale_invariance_C9_witness :
    (0 : ℝ) < 2 ∧
      analytical_callprice (fun x => x) 0 (2 * 1) 1 (2 * 1) 1 (2 * 1) =
        2 * analytical_callprice (fun x => x) 0 1 1 1 1 1 :=
  ⟨by norm_num,
    analytical_callprice_scale_invariance_C9 (fun x => x) 2 0 1 1 1 1 1
      (by norm_num) (by norm_num) (by norm_num) (by norm_num) (by norm_num) (by norm_num)⟩

/-! ## C1: the exponent of the fourth closed-form term -/

noncomputable section

/-- The four-term closed-form price exactly as the spec (§4.3) writes it, with
the fourth-term exponent `-2*r/sigma^2 - 1`.  Spec-side definition, used only to
compare claim C1 against the code. -/
def analytical_callprice_specC1 (Phi : ℝ → ℝ) (r S_0 sigma K T L : ℝ) : ℝ :=
  S_0 * (Phi (delta_plus T (S_0 / K) sigma r) - Phi (delta_plus T (S_0 / L) sigma r)) -
    K * Real.exp (-r * T) *
      (Phi (delta_minus T (S_0 / K) sigma r) - Phi (delta_minus T (S_0 / L) sigma r)) -
    L * (S_0 / L) ^ (-2 * r / sigma ^ 2 : ℝ) *
      (Phi (delta_plus T (L ^ 2 / (K * S_0)) sigma r) - Phi (delta_plus T (L / S_0) sigma r)) +
    K * Real.exp (-r * T) * (S_0 / L) ^ (-2 * r / sigma ^ 2 - 1 : ℝ) *
      (Phi (delta_minus T (L ^ 2 / (K * S_0)) sigma r) - Phi (delta_minus T (L / S_0) sigma r))

/-- The spec's four-term layout amended so that the fourth-term exponent is the
one the code computes, `1 - 2*r/sigma^2`. -/
def analytical_callprice_specC1_amended (Phi : ℝ → ℝ) (r S_0 sigma K T L : ℝ) : ℝ :=
  S_0 * (Phi (delta_plus T (S_0 / K) sigma r) - Phi (delta_plus T (S_0 / L) sigma r)) -
    K * Real.exp (-r * T) *
      (Phi (delta_minus T (S_0 / K) sigma r) - Phi (delta_minus T (S_0 / L) sigma r)) -
    L * (S_0 / L) ^ (-2 * r / sigma ^ 2 : ℝ) *
      (Phi (delta_plus T (L ^ 2 / (K * S_0)) sigma r) - Phi (delta_plus T (L / S_0) sigma r)) +
    K * Real.exp (-r * T) * (S_0 / L) ^ (1 - 2 * r / sigma ^ 2 : ℝ) *
      (Phi (delta_minus T (L ^ 2 / (K * S_0)) sigma r) - Phi (delta_minus T (L / S_0) sigma r))

end

/-- C1, counterexample: with the strictly monotone CDF `Phi = id` and
parameters `r = 0`, `S_0 = 1`, `sigma = 1`, `K = 1`, `T = 1`, `L = 2` (all
positive), the code's price differs from the spec's four-term value whose
fourth term carries exponent `-2*r/sigma^2 - 1`. -/
theorem analytical_callprice_specC1_counterexample :
    analytical_callprice (fun x => x) 0 1 1 1 1 2 ≠
      analytical_callprice_specC1 (fun x => x) 0 1 1 1 1 2 := by
  have h4 : Real.log 4 = 2 * Real.log 2 := by
    rw [show (4 : ℝ) = 2 ^ 2 by norm_num, Real.log_pow]
    push_cast
    ring
  have hcode : analytical_callprice (fun x => x) 0 1 1 1 1 2 = -(3 / 2) * Real.log 2 := by
    simp only [analytical_callprice, p1, p2, p3, p4, delta_plus, delta_minus]
    norm_num [Real.sqrt_one, Real.log_one, Real.log_inv, Real.rpow_zero, Real.rpow_one,
      Real.rpow_neg_one, Real.exp_zero, h4]
    ring
  have hspec : analytical_callprice_specC1 (fun x => x) 0 1 1 1 1 2 = 0 := by
    simp only [analytical_callprice_specC1, delta_plus, delta_minus]
    norm_num [Real.sqrt_one, Real.log_one, Real.log_inv, Real.rpow_zero, Real.rpow_one,
      Real.rpow_neg_one, Real.exp_zero, h4]
  rw [hcode, hspec]
  intro h0
  nlinarith [Real.log_pos (show (1 : ℝ) < 2 by norm_num)]

/-- C1, amended: the code's price has the spec's four-term shape with the
fourth-term exponent `1 - 2*r/sigma^2` (not `-2*r/sigma^2 - 1`), for every CDF
`Phi` and all parameters. -/
theorem analytical_callprice_fourth_term_C1 (Phi : ℝ → ℝ) (r S_0 sigma K T L : ℝ) :
    analytical_callprice Phi r S_0 sigma K T L =
      analytical_callprice_specC1_amended Phi r S_0 sigma K T L := by
  unfold analytical_callprice analytical_callprice_specC1_amended p1 p2 p3 p4
  ring

/-! ## C5: behaviour of the analytical formula when the barrier is at or below
the spot price -/

/-- C5, counterexample: at `r = 0`, `S_0 = 4`, `sigma = 1`, `K = 1`, `T = 1`,
`L = 2` (all positive, `L ≤ S_0`) and the strictly monotone CDF `Phi = id`, the
code's analytical price is `3 * log 2 ≠ 0`: the code applies the raw four-term
formula with no special case for a breached barrier. -/
theorem analytical_callprice_degenerate_barrier_C5_counterexample :
    (2 : ℝ) ≤ 4 ∧ analytical_callprice (fun x => x) 0 4 1 1 1 2 ≠ 0 := by
  refine ⟨by norm_num, ?_⟩
  have h4 : Real.log 4 = 2 * Real.log 2 := by
    rw [show (4 : ℝ) = 2 ^ 2 by norm_num, Real.log_pow]
    push_cast
    ring
  have hval : analytical_callprice (fun x => x) 0 4 1 1 1 2 = 3 * Real.log 2 := by
    simp only [analytical_callprice, p1, p2, p3, p4, delta_plus, delta_minus]
    norm_num [Real.sqrt_one, Real.log_one, Real.log_inv, Real.rpow_zero, Real.rpow_one,
      Real.rpow_neg_one, Real.exp_zero, h4]
    ring
  rw [hval]
  intro h0
  nlinarith [Real.log_pos (show (1 : ℝ) < 2 by norm_num)]

/-- C5, amended: when the barrier sits exactly at the spot price (`L = S_0`)
the four-term formula collapses to `0` for every CDF `Phi`; for `L < S_0` the
code computes the same uncorrected formula, which is in general nonzero. -/
theorem analytical_callprice_at_barrier_eq_zero_C5 (Phi : ℝ → ℝ) (r S_0 sigma K T : ℝ)
    (hS : 0 < S_0) (hK : 0 < K) :
    analytical_callprice Phi r S_0 sigma K T S_0 = 0 := by
  have h1 : S_0 ^ 2 / (K * S_0) = S_0 / K := by
    field_simp
    ring
  have h2 : S_0 / S_0 = 1 := div_self (ne_of_gt hS)
  unfold analytical_callprice p1 p2 p3 p4
  rw [h1, h2, Real.one_rpow, Real.one_rpow]
  ring

/-- Concrete instance of `analytical_callprice_at_barrier_eq_zero_C5` at unit
parameters with `Phi = id`. -/
theorem analytical_callprice_at_barrier_eq_zero_C5_witness :
    (0 : ℝ) < 1 ∧ analytical_callprice (fun x => x) 0 1 1 1 1 1 = 0 :=
  ⟨by norm_num,
    analytical_callprice_at_barrier_eq_zero_C5 (fun x => x) 0 1 1 1 1
      (by norm_num) (by norm_num)⟩

/-! ## C3: the monitoring schedule -/

noncomputable section

/-- Spec-side (§3, MonitoringSchedule): `m = round(T * 12)` monitoring
instants.  Used only to compare claim C3 against the code. -/
def spec_monitor_count (T : ℝ) : ℕ := (round (T * 12)).toNat

/-- Spec-side (§3): the schedule `t_i = i * T / m` for `i = 1 .. m` (here with
0-based index). -/
def spec_time_grid (T : ℝ) (m : ℕ) : Fin m → ℝ := fun i => ((i : ℝ) + 1) * T / m

end

/-- C3, counterexample: at `T = 11/10` both counts equal `13`, but the code's
schedule ends at `13/12 ≠ T` and its first instant `1/12` differs from the
spec's `1 * T / m = 11/130`. -/
theorem monitoring_schedule_C3_counterexample :
    months (11 / 10) = 13 ∧ spec_monitor_count (11 / 10) = 13 ∧
      time_grid 13 (Fin.last 12) ≠ (11 : ℝ) / 10 ∧
      time_grid 13 ⟨0, by norm_num⟩ ≠ spec_time_grid (11 / 10) 13 ⟨0, by norm_num⟩ := by
  refine ⟨?_, ?_, ?_, ?_⟩
  · have hfloor : ⌊(11 / 10 : ℝ) * 12⌋ = 13 := by
      apply Int.floor_eq_iff.mpr
      norm_num
    unfold months
    rw [hfloor]
    rfl
  · have hround : round ((11 / 10 : ℝ) * 12) = 13 := by
      rw [round_eq]
      apply Int.floor_eq_iff.mpr
      norm_num
    unfold spec_monitor_count
    rw [hround]
    rfl
  · unfold time_grid
    norm_num [Fin.last]
  · unfold time_grid spec_time_grid
    norm_num

/-- C3, amended: when `12 * T` is a positive integer `k` (as in the notebook,
where `T = 1`), the code's schedule has exactly `months T = k` instants and
agrees with the spec's `t_i = i * T / m`, so the last instant is `T`; for other
`T` the code's fixed `1/12` spacing departs from the spec's schedule. -/
theorem monitoring_schedule_C3_amended (k : ℕ) (hk : 0 < k) :
    months ((k : ℝ) / 12) = k ∧
      ∀ i : Fin k, time_grid k i = ((i : ℝ) + 1) * ((k : ℝ) / 12) / (k : ℝ) := by
  constructor
  · have h12 : ((k : ℝ) / 12) * 12 = (k : ℝ) := by
      field_simp
    unfold months
    rw [h12, Int.floor_natCast, Int.toNat_natCast]
  · intro i
    have hk' : (k : ℝ) ≠ 0 := Nat.cast_ne_zero.mpr hk.ne'
    unfold time_grid
    field_simp
    ring

/-- Concrete instance of `monitoring_schedule_C3_amended` at `k = 12`
(monthly monitoring over one year, the notebook's configuration). -/
theorem monitoring_schedule_C3_amended_witness :
    0 < 12 ∧
      (months (((12 : ℕ) : ℝ) / 12) = 12 ∧
        ∀ i : Fin 12, time_grid 12 i = ((i : ℝ) + 1) * (((12 : ℕ) : ℝ) / 12) / ((12 : ℕ) : ℝ)) :=
  ⟨by norm_num, monitoring_schedule_C3_amended 12 (by norm_num)⟩

/-! ## C4: the standard-error normalization -/

/-- Spec-side (§4.2 and glossary): the Bessel-corrected (`ddof = 1`) sample
standard deviation.  Used only to compare claim C4 against the code. -/
noncomputable def sample_std (xs : List ℝ) : ℝ :=
  Real.sqrt ((xs.map (fun x => (x - np_mean xs) ^ 2)).sum / ((xs.length : ℝ) - 1))

/-- C4, counterexample: on the two-element sample `[0, 2]` the code's standard
error `np_std / sqrt N = 1 / sqrt 2` differs from the spec's
`sample_std / sqrt N = 1`. -/
theorem std_error_C4_counterexample :
    call_std_of [0, 2] ≠ sample_std [0, 2] / Real.sqrt 2 := by
  have hs2 : Real.sqrt 2 ≠ 0 := by positivity
  have hcode : call_std_of [0, 2] = 1 / Real.sqrt 2 := by
    unfold call_std_of np_std np_mean
    norm_num [Real.sqrt_one]
  have hspec : sample_std [0, 2] / Real.sqrt 2 = 1 := by
    unfold sample_std np_mean
    norm_num [div_self hs2]
  rw [hcode, hspec]
  have h2 : (1 : ℝ) < Real.sqrt 2 := by
    rw [show (1 : ℝ) = Real.sqrt 1 from Real.sqrt_one.symm]
    exact Real.sqrt_lt_sqrt (by norm_num) (by norm_num)
  exact ne_of_lt ((div_lt_one (by positivity)).mpr h2)

/-- C4, amended: the code's standard error uses the population (`ddof = 0`)
standard deviation, so for every sample of size `N ≥ 2` it equals
`sqrt((N-1)/N)` times the spec's `sample_std / sqrt N`. -/
theorem std_error_population_C4 (xs : List ℝ) (h2 : 2 ≤ xs.length) :
    call_std_of xs =
      Real.sqrt (((xs.length : ℝ) - 1) / xs.length) *
        (sample_std xs / Real.sqrt xs.length) := by
  have hn : (0 : ℝ) < xs.length := by
    have : (2 : ℝ) ≤ xs.length := by exact_mod_cast h2
    linarith
  have hn1 : (0 : ℝ) < (xs.length : ℝ) - 1 := by
    have : (2 : ℝ) ≤ xs.length := by exact_mod_cast h2
    linarith
  have key : Real.sqrt (((xs.length : ℝ) - 1) / xs.length) *
      Real.sqrt ((xs.map (fun x => (x - np_mean xs) ^ 2)).sum / ((xs.length : ℝ) - 1)) =
      Real.sqrt ((xs.map (fun x => (x - np_mean xs) ^ 2)).sum / xs.length) := by
    rw [← Real.sqrt_mul (by positivity)]
    congr 1
    field_simp
    ring
  unfold call_std_of np_std sample_std
  rw [← key, mul_div_assoc]

/-- Concrete instance of `std_error_population_C4` on the sample `[0, 2]`. -/
theorem std_error_population_C4_witness :
    2 ≤ [(0 : ℝ), 2].length ∧
      call_std_of [(0 : ℝ), 2] =
        Real.sqrt ((([(0 : ℝ), 2].length : ℝ) - 1) / [(0 : ℝ), 2].length) *
          (sample_std [(0 : ℝ), 2] / Real.sqrt [(0 : ℝ), 2].length) :=
  ⟨by norm_num, std_error_population_C4 [0, 2] (by norm_num)⟩

/-! ## C6: absence of input validation -/

/-- C6, counterexample: at the invalid parameter `sigma = 0` (violating
`sigma > 0`, with `S_0 = 1`, `r = 0`, `L = 2`, one path, one monitoring step)
the computation does not fail at entry with an InvalidParameter error: the code
proceeds and returns the ordinary numeric value `1`. -/
theorem option_payoff_no_validation_C6_counterexample :
    option_payoff (N := 1) (m := 0) 1 0 0 (fun _ _ => 1) (fun _ => 1) 2 0 = 1 := by
  norm_num [option_payoff, Finset.sup'_const, Real.exp_zero]

/-- C6, amended: the code performs no parameter validation; with the invalid
parameter `sigma = 0` the simulator proceeds and returns an ordinary numeric
result, one that does not even depend on the random draws. -/
theorem option_payoff_no_validation_C6 {N m : ℕ} (S_0 r L : ℝ)
    (t : Fin (m + 1) → ℝ) (Z Z' : Fin N → Fin (m + 1) → ℝ) (p : Fin N) :
    option_payoff S_0 r 0 Z t L p = option_payoff S_0 r 0 Z' t L p := by
  simp [option_payoff]

/-! ## C8: reproducibility of the Monte Carlo sweep -/

noncomputable section

/-- Cell 2, one iteration of the sweep loop for a path count `N`: simulate the
batch, discount the payoffs, record `(N, np.mean(call_val),
np.std(call_val)/np.sqrt(N))`. -/
def mc_point (S_0 r sigma K T L : ℝ) {N m : ℕ} (Z : Fin N → Fin (m + 1) → ℝ)
    (t : Fin (m + 1) → ℝ) : ℕ × ℝ × ℝ :=
  let vals := (List.finRange N).map fun p =>
    discounted_call_payoff (option_payoff S_0 r sigma Z t L p) K r T
  (N, np_mean vals, call_std_of vals)

/-- Cell 2, the sweep `for i in range(1, 51)` with `N = i*1000`.  The draws are
supplied by `draw : sweep index → path → step → value`, modelling the stream of
variates that `norm.rvs` produces from the process-wide seeded generator. -/
def mc_sweep (S_0 r sigma K T L : ℝ) {m : ℕ} (t : Fin (m + 1) → ℝ)
    (nSweeps : ℕ) (draw : ℕ → ℕ → Fin (m + 1) → ℝ) : List (ℕ × ℝ × ℝ) :=
  (List.range nSweeps).map fun j =>
    mc_point S_0 r sigma K T L (N := (j + 1) * 1000) (fun p q => draw (j + 1) p q) t

end

/-- C8: the sweep is a pure function of its inputs and of the seed-indexed draw
stream: two invocations with identical parameters and identical seed produce
exactly equal lists of `(sample_size, mean, std_error)` estimates. -/
theorem mc_sweep_reproducible_C8 {m : ℕ} (S_0 r sigma K T L : ℝ)
    (t : Fin (m + 1) → ℝ) (nSweeps : ℕ)
    (rng : ℕ → ℕ → ℕ → Fin (m + 1) → ℝ) (seed1 seed2 : ℕ) (h : seed1 = seed2) :
    mc_sweep S_0 r sigma K T L t nSweeps (rng seed1) =
      mc_sweep S_0 r sigma K T L t nSweeps (rng seed2) := by
  rw [h]

/-- Concrete instance of `mc_sweep_reproducible_C8` with the notebook's
parameters, seed `0` both times. -/
theorem mc_sweep_reproducible_C8_witness :
    (0 : ℕ) = 0 ∧
      mc_sweep 100 (8 / 100) (3 / 10) 100 1 150 (time_grid 12) 50
          ((fun _ _ _ _ => (0 : ℝ)) 0) =
        mc_sweep 100 (8 / 100) (3 / 10) 100 1 150 (time_grid 12) 50
          ((fun _ _ _ _ => (0 : ℝ)) 0) :=
  ⟨rfl,
    mc_sweep_reproducible_C8 100 (8 / 100) (3 / 10) 100 1 150 (time_grid 12) 50
      (fun _ _ _ _ => 0) 0 0 rfl⟩

end BarrierOptions
